import Mathlib

/-!
Shallow embedding of `src/backend/server.py` (Code-trackr), a FastAPI
service for tracking solved programming problems.

Modelling conventions:
* Calendar dates (`date_completed`, `today`) are day numbers (`Int`);
  the source stores ISO `YYYY-MM-DD` strings, whose lexicographic order
  coincides with calendar order, and parses them with
  `datetime.fromisoformat(...).date()` before comparing.
* Instants (`created_at`, token issue/verify times, `exp`) are Unix
  seconds (`Int`).
* The MongoDB collections `db.users` and `db.problems` are lists of
  records; `insert_one` appends, `find` filters, `find_one` takes the
  first match.
* Python `float` percentages are modelled as exact rationals; `round(x, 1)`
  is modelled as rounding to the nearest tenth with ties to even, the
  rule Python's `round` implements on the underlying binary floats.
* HMAC-SHA256 signing (`jwt.encode` / `jwt.decode` with `SECRET_KEY`) is
  modelled by an explicit mac function parameter `mac : Nat → Payload → Nat`
  applied to a secret; `jwt.decode` checks the signature first and the
  `exp` claim second, exactly as PyJWT does. The `except jwt.JWTError`
  clause of `get_current_user` names an attribute PyJWT does not define,
  so its 401 branches are dead code and those failures surface as 500;
  a request without an `Authorization` header is rejected by
  `HTTPBearer()` with 403 before `get_current_user` runs. Both facts are
  modelled, not repaired.
* bcrypt hashing is modelled by explicit function parameters
  `hash : String → String` and `verify_pw : String → String → Bool`.
-/

namespace CodeTrackr

/-- Embedding of the pydantic `Problem` model (server.py lines 58-67). -/
structure Problem where
  id : String
  user_id : String
  title : String
  platform : String
  difficulty : String
  topics : List String
  date_completed : Int
  created_at : Int
deriving Repr, DecidableEq

/-- Embedding of the pydantic `TopicStats` model (lines 76-79). -/
structure TopicStats where
  topic : String
  count : Nat
  percentage : ℚ
deriving Repr, DecidableEq

/-- Embedding of the pydantic `Stats` model (lines 81-84). -/
structure Stats where
  total_solved : Nat
  current_streak : Nat
  topic_wise : List TopicStats
deriving Repr, DecidableEq

/-! ### Topic aggregation (get_stats, lines 186-200)

Python builds `topic_count` as a dict, iterating the problems in order
and each problem's `topics` list in order:
`topic_count[topic] = topic_count.get(topic, 0) + 1`.
A Python dict keeps keys in first-insertion order and updates in place,
so we model it as an association list with an in-place bump. -/

/-- One step of `topic_count[topic] = topic_count.get(topic, 0) + 1`:
increment the first entry for `t`, or append `(t, 1)` if absent. -/
def bump : List (String × Nat) → String → List (String × Nat)
  | [], t => [(t, 1)]
  | (k, v) :: m, t => if k = t then (k, v + 1) :: m else (k, v) :: bump m t

/-- The `topic_count` dict after the double loop of lines 189-192. -/
def topicCountMap (ps : List Problem) : List (String × Nat) :=
  ps.foldl (fun m p => p.topics.foldl bump m) []

/-- All topic occurrences, in iteration order (problems in list order,
each problem's `topics` in order). -/
def allTopics (ps : List Problem) : List String :=
  (ps.map (fun p => p.topics)).flatten

/-- Reading a key out of the association list (Python dict lookup). -/
def countOf : List (String × Nat) → String → Nat
  | [], _ => 0
  | (k, v) :: m, t => if k = t then v else countOf m t

/-- Rounding to the nearest integer with ties to even, the behaviour of
Python's `round` on an exactly-representable half. -/
def roundHalfEven (q : ℚ) : ℤ :=
  let f := ⌊q⌋
  let r := q - f
  if r < 1/2 then f
  else if 1/2 < r then f + 1
  else if f % 2 = 0 then f else f + 1

/-- Python's `round(x, 1)`: round to one decimal place. -/
def pyRound1 (q : ℚ) : ℚ := (roundHalfEven (q * 10) : ℚ) / 10

/-- Line 196: `percentage = (count / total_solved * 100) if total_solved > 0 else 0`
followed by `round(percentage, 1)` on line 197. -/
def percentageOf (count total : Nat) : ℚ :=
  pyRound1 (if 0 < total then (count : ℚ) / (total : ℚ) * 100 else 0)

/-- The `topic_wise` list before sorting (lines 194-197): one
`TopicStats` per dict entry, in dict (first-seen) order. -/
def topicWiseUnsorted (ps : List Problem) : List TopicStats :=
  (topicCountMap ps).map (fun kv => ⟨kv.1, kv.2, percentageOf kv.2 ps.length⟩)

/-! ### Stable descending sort (line 200)

`topic_wise.sort(key=lambda x: x.count, reverse=True)` is a stable sort:
descending by count, entries with equal counts keeping their original
relative order. We model it by a stable insertion sort: an element is
inserted in front of the first strictly smaller count, hence behind all
earlier elements of greater or equal count. -/

/-- Stable descending insertion: `a` goes before the first element whose
count is at most `a.count` (earlier elements with `≥` count stay first
because the caller inserts in reverse order; see `sortByCountDesc`). -/
def insertDesc (a : TopicStats) : List TopicStats → List TopicStats
  | [] => [a]
  | b :: l => if b.count ≤ a.count then a :: b :: l else b :: insertDesc a l

/-- Stable sort by count descending, modelling `list.sort(key=..., reverse=True)`. -/
def sortByCountDesc : List TopicStats → List TopicStats
  | [] => []
  | a :: l => insertDesc a (sortByCountDesc l)

/-! ### Streak (lines 202-216) -/

/-- Descending insertion for dates. -/
def insertDescInt (a : Int) : List Int → List Int
  | [] => [a]
  | b :: l => if b ≤ a then a :: b :: l else b :: insertDescInt a l

/-- Sort a list of dates descending. -/
def sortDescCore : List Int → List Int
  | [] => []
  | a :: l => insertDescInt a (sortDescCore l)

/-- Line 205: `sorted(set(p['date_completed'] for p in problems), reverse=True)` —
the distinct dates, most recent first. -/
def sortedDatesDesc (dates : List Int) : List Int :=
  sortDescCore dates.dedup

/-- The walk of lines 208-215: index `i` starts at 0; at each step the
date must equal `today - i`; the first mismatch breaks the loop. -/
def streakWalk (today : Int) : Nat → List Int → Nat
  | _, [] => 0
  | i, d :: ds => if d = today - (i : Int) then streakWalk today (i + 1) ds + 1 else 0

/-- Lines 202-215: `current_streak` is 0 for an empty problem list
(`if problems:` guard), else the walk over the sorted distinct dates. -/
def currentStreak (ps : List Problem) (today : Int) : Nat :=
  if ps = [] then 0
  else streakWalk today 0 (sortedDatesDesc (ps.map (fun p => p.date_completed)))

/-- The pure body of `get_stats` (lines 182-217) applied to the caller's
problem list and the current UTC date. -/
def get_stats (ps : List Problem) (today : Int) : Stats :=
  { total_solved := ps.length
    current_streak := currentStreak ps today
    topic_wise := sortByCountDesc (topicWiseUnsorted ps) }

/-! ### JWT token service (lines 27-30, 93-111) -/

/-- The decoded JWT payload: the `sub` claim (may be absent) and the
`exp` claim in Unix seconds. -/
structure Payload where
  sub : Option String
  exp : Int
deriving Repr, DecidableEq

/-- A signed token: payload plus HMAC signature. -/
structure AuthToken where
  payload : Payload
  sig : Nat
deriving Repr, DecidableEq

/-- Line 30: `ACCESS_TOKEN_EXPIRE_MINUTES = 30 * 24 * 60  # 30 days`. -/
def ACCESS_TOKEN_EXPIRE_MINUTES : Int := 30 * 24 * 60

/-- `create_access_token` (lines 93-98): copy the data (here its `sub`
entry), set `exp = now + timedelta(minutes=ACCESS_TOKEN_EXPIRE_MINUTES)`,
and sign with the process secret. `mac` models HMAC-SHA256. -/
def create_access_token (mac : Nat → Payload → Nat) (secret : Nat)
    (sub : Option String) (now : Int) : AuthToken :=
  let p : Payload := ⟨sub, now + ACCESS_TOKEN_EXPIRE_MINUTES * 60⟩
  ⟨p, mac secret p⟩

/-- A structured HTTP error (`HTTPException(status_code=..., detail=...)`). -/
structure HTTPError where
  status : Nat
  detail : String
deriving Repr, DecidableEq

/-- Failure modes of `jwt.decode`: bad signature (raised as an invalid
token error) or an `exp` claim in the past (`ExpiredSignatureError`).
PyJWT verifies the signature before validating claims. -/
inductive JwtError where
  | invalidToken
  | expiredSignature
deriving Repr, DecidableEq

/-- `jwt.decode(token, SECRET_KEY, algorithms=[ALGORITHM])` (line 103):
check the signature, then check that the token is not expired. -/
def jwt_decode (mac : Nat → Payload → Nat) (secret : Nat) (now : Int)
    (tok : AuthToken) : Except JwtError Payload :=
  if tok.sig = mac secret tok.payload then
    if tok.payload.exp ≤ now then .error .expiredSignature
    else .ok tok.payload
  else .error .invalidToken

/-- `get_current_user` (lines 100-111) as the code actually behaves with
PyJWT (`import jwt`): PyJWT defines `ExpiredSignatureError` but no
`JWTError` (that name exists only in python-jose), so when any exception
other than `ExpiredSignatureError` propagates out of the `try` block —
the `InvalidSignatureError` of a bad signature, or the 401
`HTTPException` raised inside the `try` for a missing `sub` claim —
matching the second handler evaluates the non-existent attribute
`jwt.JWTError`, raises `AttributeError`, and FastAPI surfaces the
request as a 500 Internal Server Error. Only the expired-token path
reaches its 401; the two `HTTPException(401, ...)` branches of the
source (`"Invalid token"`, `"Invalid authentication credentials"`) are
dead code. -/
def get_current_user (mac : Nat → Payload → Nat) (secret : Nat) (now : Int)
    (tok : AuthToken) : Except HTTPError String :=
  match jwt_decode mac secret now tok with
  | .error .expiredSignature => .error ⟨401, "Token has expired"⟩
  | .error .invalidToken => .error ⟨500, "Internal Server Error"⟩
  | .ok p =>
    match p.sub with
    | none => .error ⟨500, "Internal Server Error"⟩
    | some user_id => .ok user_id

/-- The `security = HTTPBearer()` dependency (line 33): with the default
`auto_error=True`, a request without an `Authorization: Bearer` header
is rejected with 403 "Not authenticated" before `get_current_user`
runs; with a header the credentials are handed on. -/
def http_bearer (header : Option AuthToken) : Except HTTPError AuthToken :=
  match header with
  | none => .error ⟨403, "Not authenticated"⟩
  | some tok => .ok tok

/-- The full dependency chain guarding every authenticated route:
`HTTPBearer`, then `get_current_user`. -/
def auth_chain (mac : Nat → Payload → Nat) (secret : Nat) (now : Int)
    (header : Option AuthToken) : Except HTTPError String :=
  match http_bearer header with
  | .error e => .error e
  | .ok tok => get_current_user mac secret now tok

/-! ### Credential store and auth endpoints (lines 39-56, 114-151) -/

/-- A document of the `db.users` collection: the pydantic `User` fields
plus the stored bcrypt hash added on line 125. -/
structure UserRec where
  id : String
  username : String
  created_at : Int
  password : String
deriving Repr, DecidableEq

/-- The pydantic `User` response model (lines 39-43): exactly `id`,
`username` and `created_at` — no password field exists on it. -/
structure UserOut where
  id : String
  username : String
  created_at : Int
deriving Repr, DecidableEq

/-- The pydantic `Token` response model (lines 53-56). -/
structure TokenOut where
  access_token : AuthToken
  token_type : String
  user : UserOut
deriving Repr, DecidableEq

/-- `db.users.find_one({"username": u})`: first stored record with that
username. -/
def find_user_by_username (store : List UserRec) (u : String) : Option UserRec :=
  store.find? (fun r => r.username == u)

/-- `register` (lines 114-132): reject with 400 if the username exists,
else build the `User` (fresh uuid `newId`, `created_at = now`), store it
with the hashed password, and answer with a token for the new id. -/
def register (mac : Nat → Payload → Nat) (secret : Nat) (hash : String → String)
    (store : List UserRec) (username password : String) (newId : String)
    (now : Int) : Except HTTPError TokenOut × List UserRec :=
  match find_user_by_username store username with
  | some _ => (.error ⟨400, "Username already registered"⟩, store)
  | none =>
    let user : UserOut := ⟨newId, username, now⟩
    let stored : UserRec := ⟨newId, username, now, hash password⟩
    (.ok ⟨create_access_token mac secret (some newId) now, "bearer", user⟩,
      store ++ [stored])

/-- `login` (lines 134-151): 401 unless the username exists and the
password verifies against the stored hash; on success answer with the
stored user's fields and a token for the stored id. `verify_pw` models
`pwd_context.verify`. -/
def login (mac : Nat → Payload → Nat) (secret : Nat)
    (verify_pw : String → String → Bool) (store : List UserRec)
    (username password : String) (now : Int) : Except HTTPError TokenOut :=
  match find_user_by_username store username with
  | none => .error ⟨401, "Incorrect username or password"⟩
  | some doc =>
    if verify_pw password doc.password then
      .ok ⟨create_access_token mac secret (some doc.id) now, "bearer",
        ⟨doc.id, doc.username, doc.created_at⟩⟩
    else .error ⟨401, "Incorrect username or password"⟩

/-! ### Problem endpoints (lines 69-74, 154-184, 220-255) -/

/-- The raw JSON body of `POST /api/problems` before pydantic
validation: each field present or absent. Pydantic's `ProblemCreate`
(lines 69-74) declares plain `str` / `List[str]` types with no length
constraints, so validation checks only presence and type. -/
structure RawProblemCreate where
  title : Option String
  platform : Option String
  difficulty : Option String
  topics : Option (List String)
  date_completed : Option Int
deriving Repr, DecidableEq

/-- The validated `ProblemCreate` model (lines 69-74). -/
structure ProblemCreate where
  title : String
  platform : String
  difficulty : String
  topics : List String
  date_completed : Int
deriving Repr, DecidableEq

/-- Pydantic validation of `ProblemCreate`: fail with 422 exactly when a
required field is missing (or of the wrong type, which the `Option`
payload types capture); any string values — empty included — pass. -/
def validate_problem_create (raw : RawProblemCreate) :
    Except HTTPError ProblemCreate :=
  match raw.title, raw.platform, raw.difficulty, raw.topics, raw.date_completed with
  | some t, some pf, some df, some tp, some dc => .ok ⟨t, pf, df, tp, dc⟩
  | _, _, _, _, _ => .error ⟨422, "validation error"⟩

/-- `create_problem` (lines 154-170): with an authenticated user and a
validated body, build the `Problem` (fresh uuid `newId`,
`created_at = now`) and append it to `db.problems`. -/
def create_problem (auth : Except HTTPError String) (raw : RawProblemCreate)
    (store : List Problem) (newId : String) (now : Int) :
    Except HTTPError Problem × List Problem :=
  match auth with
  | .error e => (.error e, store)
  | .ok user_id =>
    match validate_problem_create raw with
    | .error e => (.error e, store)
    | .ok pc =>
      let pr : Problem :=
        ⟨newId, user_id, pc.title, pc.platform, pc.difficulty, pc.topics,
          pc.date_completed, now⟩
      (.ok pr, store ++ [pr])

/-- `db.problems.find({"user_id": user_id}).to_list(1000)` (lines 174,
184): the caller's problems, capped at 1000 records. -/
def problems_for_user (store : List Problem) (user_id : String) : List Problem :=
  (store.filter (fun p => p.user_id == user_id)).take 1000

/-- `get_problems` (lines 172-180). -/
def handle_get_problems (auth : Except HTTPError String)
    (store : List Problem) : Except HTTPError (List Problem) :=
  match auth with
  | .error e => .error e
  | .ok user_id => .ok (problems_for_user store user_id)

/-- The `/stats` route (lines 182-217): auth gate, then the stats body
over the caller's problems. -/
def handle_get_stats (auth : Except HTTPError String) (store : List Problem)
    (today : Int) : Except HTTPError Stats :=
  match auth with
  | .error e => .error e
  | .ok user_id => .ok (get_stats (problems_for_user store user_id) today)

/-- The 10 fixed sample problems of `seed_data` (lines 227-238), with
their dates relative to today (5, 4, 3, 2, 1, 0, 0, 6, 7, 8 days ago)
and per-problem fresh uuids `ids 0`, …, `ids 9`. -/
def sample_problems (user_id : String) (ids : Nat → String) (today now : Int) :
    List Problem :=
  [⟨ids 0, user_id, "Two Sum", "LeetCode", "Easy", ["Arrays", "Hash Table"], today - 5, now⟩,
   ⟨ids 1, user_id, "Reverse Linked List", "LeetCode", "Easy", ["Linked List"], today - 4, now⟩,
   ⟨ids 2, user_id, "Valid Parentheses", "LeetCode", "Easy", ["Stack", "Strings"], today - 3, now⟩,
   ⟨ids 3, user_id, "Binary Tree Inorder Traversal", "LeetCode", "Medium", ["Trees", "DFS"], today - 2, now⟩,
   ⟨ids 4, user_id, "Longest Palindromic Substring", "LeetCode", "Medium", ["Strings", "DP"], today - 1, now⟩,
   ⟨ids 5, user_id, "Merge Two Sorted Lists", "LeetCode", "Easy", ["Linked List"], today, now⟩,
   ⟨ids 6, user_id, "Maximum Subarray", "LeetCode", "Medium", ["Arrays", "DP"], today, now⟩,
   ⟨ids 7, user_id, "Climbing Stairs", "LeetCode", "Easy", ["DP"], today - 6, now⟩,
   ⟨ids 8, user_id, "Roman to Integer", "Codeforces", "Easy", ["Strings", "Hash Table"], today - 7, now⟩,
   ⟨ids 9, user_id, "Binary Search", "Codeforces", "Easy", ["Arrays", "Binary Search"], today - 8, now⟩]

/-- `seed_data` (lines 220-255): if `db.problems.count_documents` for the
caller is positive, answer the no-op message and change nothing; else
insert the 10 sample problems and answer the seeded message. -/
def seed_data (auth : Except HTTPError String) (store : List Problem)
    (ids : Nat → String) (today now : Int) :
    Except HTTPError String × List Problem :=
  match auth with
  | .error e => (.error e, store)
  | .ok user_id =>
    if 0 < (store.filter (fun p => p.user_id == user_id)).length then
      (.ok "User already has problems", store)
    else
      (.ok "Seeded 10 sample problems", store ++ sample_problems user_id ids today now)

/-! ### Spec-side definitions

Statements of the spec written in its own words, to be compared with the
embedded source definitions above. -/

/-- Spec wording (§4.4, streak): the streak is the length of the longest
prefix of the deduplicated dates sorted descending on which the `i`-th
date equals `today - i`. -/
def specStreak (today : Int) (dates : List Int) : Nat :=
  ((sortedDatesDesc dates).enum.takeWhile
    (fun p => p.2 == today - (p.1 : Int))).length

/-- Spec wording (§4.4, topics): `percentage = count / total_solved × 100`
rounded to 1 decimal place, and 0 for all topics when `total_solved = 0`. -/
def specPercentage (count total : Nat) : ℚ :=
  if total = 0 then 0 else pyRound1 ((count : ℚ) / (total : ℚ) * 100)

/-- Spec wording (§4.4, topics): one entry per distinct topic, whose
count is the number of occurrences of the topic across all problems'
topics lists. -/
def specTopicEntries (ps : List Problem) : List TopicStats :=
  ((allTopics ps).dedup).map
    (fun t => ⟨t, (allTopics ps).count t,
      specPercentage ((allTopics ps).count t) ps.length⟩)

/-! ### Sanity checks: the embedding on the spec's §8 test vectors -/

example : get_stats [] 5 = ⟨0, 0, []⟩ := by decide

example :
    (get_stats [⟨"p1", "u1", "Two Sum", "LeetCode", "Easy",
      ["Arrays", "Hash Table"], 5, 0⟩] 5).total_solved = 1 ∧
    (get_stats [⟨"p1", "u1", "Two Sum", "LeetCode", "Easy",
      ["Arrays", "Hash Table"], 5, 0⟩] 5).current_streak = 1 ∧
    ((get_stats [⟨"p1", "u1", "Two Sum", "LeetCode", "Easy",
      ["Arrays", "Hash Table"], 5, 0⟩] 5).topic_wise.map
        (fun ts => (ts.topic, ts.count))) =
      [("Arrays", 1), ("Hash Table", 1)] := by
  refine ⟨rfl, by decide, by decide⟩

example : percentageOf 1 1 = 100 := by
  norm_num [percentageOf, pyRound1, roundHalfEven]

example :
    (get_stats [⟨"p1", "u1", "A", "L", "Easy", ["X"], 5, 0⟩,
      ⟨"p2", "u1", "B", "L", "Easy", ["X"], 4, 0⟩] 5).current_streak = 2 := by
  decide

example :
    (get_stats [⟨"p1", "u1", "A", "L", "Easy", ["X"], 5, 0⟩,
      ⟨"p2", "u1", "B", "L", "Easy", ["X"], 3, 0⟩] 5).current_streak = 1 := by
  decide

example :
    (get_stats [⟨"p1", "u1", "A", "L", "Easy", ["X"], 4, 0⟩,
      ⟨"p2", "u1", "B", "L", "Easy", ["X"], 5, 0⟩,
      ⟨"p3", "u1", "C", "L", "Easy", ["X"], 4, 0⟩] 5).current_streak = 2 := by
  decide

example : percentageOf 1 3 = 333 / 10 := by
  norm_num [percentageOf, pyRound1, roundHalfEven]

example : percentageOf 1 16 = 62 / 10 := by
  norm_num [percentageOf, pyRound1, roundHalfEven]

/-! ### Lemmas about the descending date sort -/

theorem mem_insertDescInt {x a : Int} {l : List Int} :
    x ∈ insertDescInt a l ↔ x = a ∨ x ∈ l := by
  induction l with
  | nil => simp [insertDescInt]
  | cons b l ih =>
    by_cases h : b ≤ a <;> simp [insertDescInt, h, ih] <;> tauto

theorem pairwise_insertDescInt {a : Int} {l : List Int}
    (h : l.Pairwise (fun x y => y ≤ x)) :
    (insertDescInt a l).Pairwise (fun x y => y ≤ x) := by
  induction l with
  | nil => simp [insertDescInt]
  | cons b l ih =>
    rcases List.pairwise_cons.mp h with ⟨hb, hl⟩
    by_cases hba : b ≤ a
    · rw [insertDescInt, if_pos hba]
      refine List.pairwise_cons.mpr ⟨?_, h⟩
      intro y hy
      rcases List.mem_cons.mp hy with rfl | hy
      · exact hba
      · exact le_trans (hb y hy) hba
    · rw [insertDescInt, if_neg hba]
      refine List.pairwise_cons.mpr ⟨?_, ih hl⟩
      intro y hy
      rcases mem_insertDescInt.mp hy with rfl | hy
      · exact le_of_lt (lt_of_not_le hba)
      · exact hb y hy

theorem pairwise_sortDescCore (l : List Int) :
    (sortDescCore l).Pairwise (fun x y => y ≤ x) := by
  induction l with
  | nil => simp [sortDescCore]
  | cons a l ih => exact pairwise_insertDescInt ih

theorem mem_sortDescCore {x : Int} {l : List Int} :
    x ∈ sortDescCore l ↔ x ∈ l := by
  induction l with
  | nil => simp [sortDescCore]
  | cons a l ih => simp [sortDescCore, mem_insertDescInt, ih]

theorem sortDescCore_ne_nil {l : List Int} (h : l ≠ []) :
    sortDescCore l ≠ [] := by
  cases l with
  | nil => simp at h
  | cons a l =>
    show insertDescInt a (sortDescCore l) ≠ []
    cases sortDescCore l with
    | nil => simp [insertDescInt]
    | cons b m => by_cases hba : b ≤ a <;> simp [insertDescInt, hba]

theorem streakWalk_eq_takeWhile (today : Int) (l : List Int) (i : Nat) :
    streakWalk today i l =
      ((l.enumFrom i).takeWhile (fun p => p.2 == today - (p.1 : Int))).length := by
  induction l generalizing i with
  | nil => simp [streakWalk]
  | cons d ds ih =>
    by_cases h : d = today - (i : Int)
    · simp [streakWalk, h, List.takeWhile_cons, ih (i + 1)]
    · simp [streakWalk, h, List.takeWhile_cons]

/-- Claim C3: for every list of problems, `current_streak` equals the
length of the longest prefix of the deduplicated completion dates sorted
descending on which the `i`-th date equals `today - i`; duplicates count
once, the walk stops at the first mismatch, and the empty problem list
yields streak 0. -/
theorem claim3_streak_matches_spec (ps : List Problem) (today : Int) :
    (get_stats ps today).current_streak =
      specStreak today (ps.map (fun p => p.date_completed)) := by
  unfold get_stats currentStreak specStreak
  by_cases h : ps = []
  · subst h
    simp [sortedDatesDesc, sortDescCore]
  · simp only [if_neg h]
    rw [streakWalk_eq_takeWhile]
    rfl

/-- Claim C2: for every non-empty list of problems whose most recent
completion date differs from today, the streak is 0 — there is no grace
period for yesterday. -/
theorem claim2_no_grace_period (ps : List Problem) (today m : Int)
    (hne : ps ≠ [])
    (hmax : (ps.map (fun p => p.date_completed)).maximum = (m : Int))
    (hm : m ≠ today) :
    (get_stats ps today).current_streak = 0 := by
  unfold get_stats currentStreak
  simp only [if_neg hne]
  have hdne : (ps.map (fun p => p.date_completed)).dedup ≠ [] := by
    intro hcon
    exact hne (by simpa [List.map_eq_nil_iff] using (List.dedup_eq_nil _).mp hcon)
  obtain ⟨h0, t0, hht⟩ := List.exists_cons_of_ne_nil (sortDescCore_ne_nil hdne)
  have hmem : h0 ∈ sortDescCore (ps.map (fun p => p.date_completed)).dedup := by
    rw [hht]
    exact List.mem_cons_self _ _
  have h0le : h0 ≤ m :=
    List.le_maximum_of_mem (List.mem_dedup.mp (mem_sortDescCore.mp hmem)) hmax
  have hmmem : m ∈ sortDescCore (ps.map (fun p => p.date_completed)).dedup :=
    mem_sortDescCore.mpr (List.mem_dedup.mpr (List.maximum_mem hmax))
  have hpw := pairwise_sortDescCore (ps.map (fun p => p.date_completed)).dedup
  rw [hht] at hpw hmmem
  have hle2 : m ≤ h0 := by
    rcases List.mem_cons.mp hmmem with rfl | hm2
    · exact le_refl _
    · exact (List.pairwise_cons.mp hpw).1 m hm2
  have h0ne : h0 ≠ today := by
    intro hcon
    exact hm (by rw [← le_antisymm h0le hle2, hcon])
  rw [sortedDatesDesc, hht]
  simp [streakWalk, h0ne]

/-- Concrete instantiation of `claim2_no_grace_period`: one problem
completed on day 5, today is day 7; the streak is 0. -/
theorem claim2_no_grace_period_witness :
    ([(⟨"p1", "u1", "T", "L", "Easy", ["A"], 5, 0⟩ : Problem)] : List Problem) ≠ [] ∧
    (([(⟨"p1", "u1", "T", "L", "Easy", ["A"], 5, 0⟩ : Problem)] : List Problem).map
      (fun p => p.date_completed)).maximum = ((5 : Int) : Int) ∧
    (5 : Int) ≠ 7 ∧
    (get_stats [(⟨"p1", "u1", "T", "L", "Easy", ["A"], 5, 0⟩ : Problem)] 7).current_streak = 0 := by
  refine ⟨by simp, by decide, by decide, ?_⟩
  exact claim2_no_grace_period _ 7 5 (by simp) (by decide) (by decide)

/-- Claim C1 (code bug): pydantic `ProblemCreate` (server.py lines 69-74)
declares plain `str` and `List[str]` fields with no non-emptiness
constraints, so an authenticated `POST /api/problems` whose body has an
empty title and an empty topics list passes validation, is answered with
the created problem (HTTP 200), and is persisted — while the spec and
the repository's own test (`backend_test.py`,
`test_invalid_problem_creation`) expect a 422 with no record stored. -/
theorem claim1_empty_title_topics_accepted :
    create_problem (.ok "user-1")
      ⟨some "", some "LeetCode", some "Easy", some [], some 19738⟩
      [] "pid-1" 0 =
      (.ok ⟨"pid-1", "user-1", "", "LeetCode", "Easy", [], 19738, 0⟩,
        [⟨"pid-1", "user-1", "", "LeetCode", "Easy", [], 19738, 0⟩]) := by
  rfl

/-- Claim C5 (code bug): evaluation of the embedded auth gate at
concrete requests. With PyJWT, `except jwt.JWTError` raises
`AttributeError`, so a token with an invalid signature and a token
missing the `sub` claim both surface as 500 Internal Server Error, and
a request with no `Authorization` header is rejected by `HTTPBearer`
with 403 — contradicting the claim (and the spec, the dead 401 branches
of lines 106 and 111, and the repository's own
`test_protected_route_without_token`, which all call for 401). Only the
expired-token path returns 401; a valid token still yields its subject,
and the 500 propagates unchanged through the route handlers. -/
theorem claim5_auth_failures_not_401 :
    get_current_user (fun _ _ => 0) 0 50 ⟨⟨some "u", 100⟩, 1⟩ =
      .error ⟨500, "Internal Server Error"⟩ ∧
    get_current_user (fun _ _ => 0) 0 50 ⟨⟨none, 100⟩, 0⟩ =
      .error ⟨500, "Internal Server Error"⟩ ∧
    get_current_user (fun _ _ => 0) 0 150 ⟨⟨some "u", 100⟩, 0⟩ =
      .error ⟨401, "Token has expired"⟩ ∧
    auth_chain (fun _ _ => 0) 0 50 none = .error ⟨403, "Not authenticated"⟩ ∧
    auth_chain (fun _ _ => 0) 0 50 (some ⟨⟨some "u", 100⟩, 0⟩) = .ok "u" ∧
    handle_get_problems (.error ⟨500, "Internal Server Error"⟩) [] =
      .error ⟨500, "Internal Server Error"⟩ ∧
    handle_get_stats (.error ⟨403, "Not authenticated"⟩) [] 0 =
      .error ⟨403, "Not authenticated"⟩ := by
  exact ⟨rfl, rfl, rfl, rfl, rfl, rfl, rfl⟩

/-- Claim C6: an issued token embeds subject = user id and expiry =
issue time + 30 days (in seconds), and verifying it at any time before
the expiry returns the same user id. -/
theorem claim6_issue_verify_roundtrip (mac : Nat → Payload → Nat)
    (secret : Nat) (uid : String) (t tv : Int)
    (h : tv < t + 30 * 24 * 60 * 60) :
    (create_access_token mac secret (some uid) t).payload.sub = some uid ∧
    (create_access_token mac secret (some uid) t).payload.exp =
      t + 30 * 24 * 60 * 60 ∧
    get_current_user mac secret tv (create_access_token mac secret (some uid) t) =
      .ok uid := by
  refine ⟨rfl, by norm_num [create_access_token, ACCESS_TOKEN_EXPIRE_MINUTES], ?_⟩
  have hlt : tv < t + ACCESS_TOKEN_EXPIRE_MINUTES * 60 := by
    have h60 : ACCESS_TOKEN_EXPIRE_MINUTES * 60 = 30 * 24 * 60 * 60 := by
      norm_num [ACCESS_TOKEN_EXPIRE_MINUTES]
    rw [h60]
    exact h
  simp [get_current_user, jwt_decode, create_access_token, not_le.mpr hlt]

/-- Concrete instantiation of `claim6_issue_verify_roundtrip`: issue at
time 0, verify at time 100. -/
theorem claim6_issue_verify_roundtrip_witness :
    (100 : Int) < 0 + 30 * 24 * 60 * 60 ∧
    ((create_access_token (fun _ _ => 0) 0 (some "u1") 0).payload.sub = some "u1" ∧
    (create_access_token (fun _ _ => 0) 0 (some "u1") 0).payload.exp =
      0 + 30 * 24 * 60 * 60 ∧
    get_current_user (fun _ _ => 0) 0 100
      (create_access_token (fun _ _ => 0) 0 (some "u1") 0) = .ok "u1") := by
  exact ⟨by norm_num,
    claim6_issue_verify_roundtrip (fun _ _ => 0) 0 "u1" 0 100 (by norm_num)⟩

/-- Claim C7: registering a username absent from the credential store
succeeds and appends exactly one user record; registering a username
already present fails with 400 and leaves the store unchanged. -/
theorem claim7_register_unique (mac : Nat → Payload → Nat) (secret : Nat)
    (hash : String → String) (store : List UserRec)
    (username password newId : String) (now : Int) :
    ((∀ r ∈ store, r.username ≠ username) →
      register mac secret hash store username password newId now =
        (.ok ⟨create_access_token mac secret (some newId) now, "bearer",
          ⟨newId, username, now⟩⟩,
         store ++ [⟨newId, username, now, hash password⟩])) ∧
    ((∃ r ∈ store, r.username = username) →
      register mac secret hash store username password newId now =
        (.error ⟨400, "Username already registered"⟩, store)) := by
  constructor
  · intro hnone
    have hfind : find_user_by_username store username = none := by
      apply List.find?_eq_none.mpr
      intro r hr
      simpa using hnone r hr
    simp [register, hfind]
  · rintro ⟨r, hr, hu⟩
    rcases hfound : find_user_by_username store username with _ | doc
    · exfalso
      have := List.find?_eq_none.mp hfound r hr
      simp [hu] at this
    · simp [register, hfound]

/-- Concrete instantiations of `claim7_register_unique`: registering
"alice" into an empty store succeeds and inserts one record; registering
"alice" again fails with 400 and inserts nothing. -/
theorem claim7_register_unique_witness :
    (∀ r ∈ ([] : List UserRec), r.username ≠ "alice") ∧
    register (fun _ _ => 0) 0 (fun p => p) [] "alice" "pw" "id1" 0 =
      (.ok ⟨create_access_token (fun _ _ => 0) 0 (some "id1") 0, "bearer",
        ⟨"id1", "alice", 0⟩⟩, [(⟨"id1", "alice", 0, "pw"⟩ : UserRec)]) ∧
    (∃ r ∈ [(⟨"id1", "alice", 0, "pw"⟩ : UserRec)], r.username = "alice") ∧
    register (fun _ _ => 0) 0 (fun p => p)
      [(⟨"id1", "alice", 0, "pw"⟩ : UserRec)] "alice" "pw2" "id2" 1 =
      (.error ⟨400, "Username already registered"⟩,
        [(⟨"id1", "alice", 0, "pw"⟩ : UserRec)]) := by
  refine ⟨by simp, ?_, ?_, ?_⟩
  · exact (claim7_register_unique (fun _ _ => 0) 0 (fun p => p) []
      "alice" "pw" "id1" 0).1 (by simp)
  · exact ⟨⟨"id1", "alice", 0, "pw"⟩, by simp, rfl⟩
  · exact (claim7_register_unique (fun _ _ => 0) 0 (fun p => p)
      [(⟨"id1", "alice", 0, "pw"⟩ : UserRec)] "alice" "pw2" "id2" 1).2
      ⟨⟨"id1", "alice", 0, "pw"⟩, by simp, rfl⟩

/-- Claim C8: login fails with 401 when the username is absent or the
password does not verify against the stored hash; with correct
credentials it succeeds and its token's subject is the stored user's id. -/
theorem claim8_login (mac : Nat → Payload → Nat) (secret : Nat)
    (verify_pw : String → String → Bool) (store : List UserRec)
    (username password : String) (now : Int) (doc : UserRec) :
    ((∀ r ∈ store, r.username ≠ username) →
      login mac secret verify_pw store username password now =
        .error ⟨401, "Incorrect username or password"⟩) ∧
    (find_user_by_username store username = some doc →
      verify_pw password doc.password = false →
      login mac secret verify_pw store username password now =
        .error ⟨401, "Incorrect username or password"⟩) ∧
    (find_user_by_username store username = some doc →
      verify_pw password doc.password = true →
      login mac secret verify_pw store username password now =
        .ok ⟨create_access_token mac secret (some doc.id) now, "bearer",
          ⟨doc.id, doc.username, doc.created_at⟩⟩ ∧
      (create_access_token mac secret (some doc.id) now).payload.sub =
        some doc.id) := by
  refine ⟨?_, ?_, ?_⟩
  · intro hnone
    have hfind : find_user_by_username store username = none := by
      apply List.find?_eq_none.mpr
      intro r hr
      simpa using hnone r hr
    simp [login, hfind]
  · intro hfound hv
    simp [login, hfound, hv]
  · intro hfound hv
    exact ⟨by simp [login, hfound, hv], rfl⟩

/-- Concrete instantiations of `claim8_login`: unknown username, wrong
password, and correct credentials against a one-user store. -/
theorem claim8_login_witness :
    (∀ r ∈ ([] : List UserRec), r.username ≠ "alice") ∧
    login (fun _ _ => 0) 0 (fun p h => p == h) [] "alice" "pw" 0 =
      .error ⟨401, "Incorrect username or password"⟩ ∧
    (find_user_by_username [(⟨"id1", "alice", 0, "pw"⟩ : UserRec)] "alice" =
      some ⟨"id1", "alice", 0, "pw"⟩ ∧
     (fun (p h : String) => p == h) "bad" "pw" = false ∧
     login (fun _ _ => 0) 0 (fun p h => p == h)
       [(⟨"id1", "alice", 0, "pw"⟩ : UserRec)] "alice" "bad" 0 =
       .error ⟨401, "Incorrect username or password"⟩) ∧
    ((fun (p h : String) => p == h) "pw" "pw" = true ∧
     login (fun _ _ => 0) 0 (fun p h => p == h)
       [(⟨"id1", "alice", 0, "pw"⟩ : UserRec)] "alice" "pw" 0 =
       .ok ⟨create_access_token (fun _ _ => 0) 0 (some "id1") 0, "bearer",
         ⟨"id1", "alice", 0⟩⟩ ∧
     (create_access_token (fun _ _ => 0) 0 (some "id1") 0).payload.sub =
       some "id1") := by
  refine ⟨by simp, ?_, ⟨by rfl, by rfl, ?_⟩, ⟨by rfl, ?_⟩⟩
  · exact (claim8_login (fun _ _ => 0) 0 (fun p h => p == h) [] "alice" "pw" 0
      ⟨"id1", "alice", 0, "pw"⟩).1 (by simp)
  · exact (claim8_login (fun _ _ => 0) 0 (fun p h => p == h)
      [(⟨"id1", "alice", 0, "pw"⟩ : UserRec)] "alice" "bad" 0
      ⟨"id1", "alice", 0, "pw"⟩).2.1 (by rfl) (by rfl)
  · exact (claim8_login (fun _ _ => 0) 0 (fun p h => p == h)
      [(⟨"id1", "alice", 0, "pw"⟩ : UserRec)] "alice" "pw" 0
      ⟨"id1", "alice", 0, "pw"⟩).2.2 (by rfl) (by rfl)

/-- Claim C9: `/seed-data` is idempotent per user — with existing
problems it answers the no-op message and changes nothing; with none it
appends exactly the 10 fixed sample problems; and a second call after
any first call is always a no-op. -/
theorem claim9_seed_idempotent (uid : String) (store : List Problem)
    (ids ids2 : Nat → String) (today now today2 now2 : Int) :
    (0 < (store.filter (fun p => p.user_id == uid)).length →
      seed_data (.ok uid) store ids today now =
        (.ok "User already has problems", store)) ∧
    ((store.filter (fun p => p.user_id == uid)).length = 0 →
      seed_data (.ok uid) store ids today now =
        (.ok "Seeded 10 sample problems",
          store ++ sample_problems uid ids today now) ∧
      (sample_problems uid ids today now).length = 10) ∧
    (seed_data (.ok uid) (seed_data (.ok uid) store ids today now).2
        ids2 today2 now2 =
      (.ok "User already has problems",
        (seed_data (.ok uid) store ids today now).2)) := by
  refine ⟨?_, ?_, ?_⟩
  · intro h
    simp [seed_data, h]
  · intro h
    exact ⟨by simp [seed_data, h], rfl⟩
  · by_cases h : 0 < (store.filter (fun p => p.user_id == uid)).length
    · have hin : seed_data (.ok uid) store ids today now =
          (.ok "User already has problems", store) := by
        simp [seed_data, h]
      rw [hin]
      simp [seed_data, h]
    · have hin : seed_data (.ok uid) store ids today now =
          (.ok "Seeded 10 sample problems",
            store ++ sample_problems uid ids today now) := by
        simp [seed_data, h]
      rw [hin]
      have hfil : (sample_problems uid ids today now).filter
          (fun p => p.user_id == uid) = sample_problems uid ids today now := by
        simp [sample_problems]
      have hpos : 0 < ((store ++ sample_problems uid ids today now).filter
          (fun p => p.user_id == uid)).length := by
        rw [List.filter_append, List.length_append, hfil]
        simp [sample_problems]
      simp [seed_data, hpos]
      intro _
      exact ⟨⟨ids 0, uid, "Two Sum", "LeetCode", "Easy",
        ["Arrays", "Hash Table"], today - 5, now⟩, by simp [sample_problems], rfl⟩

/-- Concrete instantiations of `claim9_seed_idempotent`: a caller with
one problem gets the no-op, a caller with none gets 10 samples, and the
second call is a no-op. -/
theorem claim9_seed_idempotent_witness :
    (0 < ([(⟨"q1", "u1", "T", "L", "Easy", ["A"], 5, 0⟩ : Problem)].filter
        (fun p => p.user_id == "u1")).length ∧
     seed_data (.ok "u1") [(⟨"q1", "u1", "T", "L", "Easy", ["A"], 5, 0⟩ : Problem)]
        (fun _ => "sid") 7 0 =
       (.ok "User already has problems",
         [(⟨"q1", "u1", "T", "L", "Easy", ["A"], 5, 0⟩ : Problem)])) ∧
    ((([] : List Problem).filter (fun p => p.user_id == "u1")).length = 0 ∧
     seed_data (.ok "u1") [] (fun _ => "sid") 7 0 =
       (.ok "Seeded 10 sample problems",
         [] ++ sample_problems "u1" (fun _ => "sid") 7 0) ∧
     (sample_problems "u1" (fun _ => "sid") 7 0).length = 10) ∧
    seed_data (.ok "u1") (seed_data (.ok "u1") [] (fun _ => "sid") 7 0).2
        (fun _ => "sid") 8 1 =
      (.ok "User already has problems",
        (seed_data (.ok "u1") [] (fun _ => "sid") 7 0).2) := by
  refine ⟨⟨by decide, ?_⟩, ⟨by decide, ?_⟩, ?_⟩
  · exact (claim9_seed_idempotent "u1"
      [(⟨"q1", "u1", "T", "L", "Easy", ["A"], 5, 0⟩ : Problem)]
      (fun _ => "sid") (fun _ => "sid") 7 0 8 1).1 (by decide)
  · exact (claim9_seed_idempotent "u1" [] (fun _ => "sid") (fun _ => "sid")
      7 0 8 1).2.1 (by decide)
  · exact (claim9_seed_idempotent "u1" [] (fun _ => "sid") (fun _ => "sid")
      7 0 8 1).2.2

/-- Claim C10: the register response does not depend on the submitted
password at all; a successful register's user object is exactly
`⟨id, username, created_at⟩` (the `UserOut` model has no password
field); and a successful login response consists only of the stored
user's id, username and created_at plus a token over the id — the
stored hash appears in no response. -/
theorem claim10_no_password_in_response (mac : Nat → Payload → Nat)
    (secret : Nat) (hash : String → String)
    (verify_pw : String → String → Bool) (store : List UserRec)
    (username p1 p2 password newId : String) (now : Int)
    (doc : UserRec) (t : TokenOut) :
    ((register mac secret hash store username p1 newId now).1 =
      (register mac secret hash store username p2 newId now).1) ∧
    ((register mac secret hash store username p1 newId now).1 = .ok t →
      t.user = ⟨newId, username, now⟩) ∧
    (find_user_by_username store username = some doc →
      login mac secret verify_pw store username password now = .ok t →
      t = ⟨create_access_token mac secret (some doc.id) now, "bearer",
        ⟨doc.id, doc.username, doc.created_at⟩⟩) := by
  refine ⟨?_, ?_, ?_⟩
  · rcases hfound : find_user_by_username store username with _ | d <;>
      simp [register, hfound]
  · intro hok
    rcases hfound : find_user_by_username store username with _ | d
    · simp [register, hfound] at hok
      rw [← hok]
    · simp [register, hfound] at hok
  · intro hfound hok
    by_cases hv : verify_pw password doc.password
    · simp [login, hfound, hv] at hok
      rw [← hok]
    · simp [login, hfound, hv] at hok

/-- Concrete instantiations of `claim10_no_password_in_response`: two
registrations differing only in password give the same response; the
register and login responses carry exactly id, username and created_at. -/
theorem claim10_no_password_in_response_witness :
    ((register (fun _ _ => 0) 0 (fun p => p) [] "alice" "pw1" "id1" 0).1 =
      (register (fun _ _ => 0) 0 (fun p => p) [] "alice" "pw2" "id1" 0).1) ∧
    ((register (fun _ _ => 0) 0 (fun p => p) [] "alice" "pw1" "id1" 0).1 =
      .ok ⟨create_access_token (fun _ _ => 0) 0 (some "id1") 0, "bearer",
        ⟨"id1", "alice", 0⟩⟩ ∧
     (⟨create_access_token (fun _ _ => 0) 0 (some "id1") 0, "bearer",
        ⟨"id1", "alice", 0⟩⟩ : TokenOut).user = ⟨"id1", "alice", 0⟩) ∧
    (find_user_by_username [(⟨"id1", "alice", 0, "pw"⟩ : UserRec)] "alice" =
      some ⟨"id1", "alice", 0, "pw"⟩ ∧
     login (fun _ _ => 0) 0 (fun p h => p == h)
       [(⟨"id1", "alice", 0, "pw"⟩ : UserRec)] "alice" "pw" 0 =
       .ok ⟨create_access_token (fun _ _ => 0) 0 (some "id1") 0, "bearer",
         ⟨"id1", "alice", 0⟩⟩ ∧
     (⟨create_access_token (fun _ _ => 0) 0 (some "id1") 0, "bearer",
        ⟨"id1", "alice", 0⟩⟩ : TokenOut) =
       ⟨create_access_token (fun _ _ => 0) 0 (some "id1") 0, "bearer",
         ⟨"id1", "alice", 0⟩⟩) := by
  refine ⟨?_, ⟨by rfl, ?_⟩, ⟨by rfl, by rfl, ?_⟩⟩
  · exact (claim10_no_password_in_response (fun _ _ => 0) 0 (fun p => p)
      (fun p h => p == h) [] "alice" "pw1" "pw2" "pw" "id1" 0
      ⟨"id1", "alice", 0, "pw"⟩
      ⟨create_access_token (fun _ _ => 0) 0 (some "id1") 0, "bearer",
        ⟨"id1", "alice", 0⟩⟩).1
  · exact (claim10_no_password_in_response (fun _ _ => 0) 0 (fun p => p)
      (fun p h => p == h) [] "alice" "pw1" "pw2" "pw" "id1" 0
      ⟨"id1", "alice", 0, "pw"⟩
      ⟨create_access_token (fun _ _ => 0) 0 (some "id1") 0, "bearer",
        ⟨"id1", "alice", 0⟩⟩).2.1 (by rfl)
  · exact (claim10_no_password_in_response (fun _ _ => 0) 0 (fun p => p)
      (fun p h => p == h) [(⟨"id1", "alice", 0, "pw"⟩ : UserRec)]
      "alice" "pw1" "pw2" "pw" "id1" 0 ⟨"id1", "alice", 0, "pw"⟩
      ⟨create_access_token (fun _ _ => 0) 0 (some "id1") 0, "bearer",
        ⟨"id1", "alice", 0⟩⟩).2.2 (by rfl) (by rfl)

/-! ### Lemmas about the topic-count dict -/

theorem countOf_bump_self (m : List (String × Nat)) (t : String) :
    countOf (bump m t) t = countOf m t + 1 := by
  induction m with
  | nil => simp [bump, countOf]
  | cons kv m ih =>
    obtain ⟨k, v⟩ := kv
    by_cases h : k = t
    · simp [bump, countOf, h]
    · simp [bump, countOf, h, ih]

theorem countOf_bump_ne (m : List (String × Nat)) (t s : String)
    (hst : ¬ s = t) : countOf (bump m t) s = countOf m s := by
  have hts : ¬ t = s := fun h => hst h.symm
  induction m with
  | nil => simp [bump, countOf, hts]
  | cons kv m ih =>
    obtain ⟨k, v⟩ := kv
    by_cases h : k = t
    · subst h
      simp [bump, countOf, hts]
    · by_cases hks : k = s
      · subst hks
        simp [bump, countOf, h, hst]
      · simp [bump, countOf, h, hks, ih]

theorem mem_keys_bump (m : List (String × Nat)) (t s : String) :
    s ∈ (bump m t).map Prod.fst ↔ s = t ∨ s ∈ m.map Prod.fst := by
  induction m with
  | nil => simp [bump]
  | cons kv m ih =>
    obtain ⟨k, v⟩ := kv
    by_cases h : k = t
    · subst h
      simp [bump]
      try tauto
    · simp [bump, h, ih]
      try tauto

theorem nodup_keys_bump (m : List (String × Nat)) (t : String)
    (h : (m.map Prod.fst).Nodup) : ((bump m t).map Prod.fst).Nodup := by
  induction m with
  | nil => simp [bump]
  | cons kv m ih =>
    obtain ⟨k, v⟩ := kv
    rcases List.nodup_cons.mp h with ⟨hk, hm⟩
    by_cases hkt : k = t
    · subst hkt
      simpa [bump] using h
    · rw [show bump ((k, v) :: m) t = (k, v) :: bump m t by simp [bump, hkt],
        List.map_cons]
      refine List.nodup_cons.mpr ⟨?_, ih hm⟩
      intro hcon
      rcases (mem_keys_bump m t k).mp hcon with rfl | hcon2
      · exact hkt rfl
      · exact hk hcon2

theorem countOf_foldl_bump (ts : List String) (m : List (String × Nat))
    (s : String) :
    countOf (ts.foldl bump m) s = countOf m s + ts.count s := by
  induction ts generalizing m with
  | nil => simp
  | cons t ts ih =>
    rw [List.foldl_cons, ih]
    by_cases h : s = t
    · subst h
      rw [countOf_bump_self, List.count_cons]
      simp
      omega
    · rw [countOf_bump_ne m t s h, List.count_cons]
      have hts : ¬ t = s := fun hh => h hh.symm
      simp [h, hts]

theorem mem_keys_foldl_bump (ts : List String) (m : List (String × Nat))
    (s : String) :
    s ∈ (ts.foldl bump m).map Prod.fst ↔ s ∈ m.map Prod.fst ∨ s ∈ ts := by
  induction ts generalizing m with
  | nil => simp
  | cons t ts ih =>
    rw [List.foldl_cons, ih, mem_keys_bump]
    simp
    tauto

theorem nodup_keys_foldl_bump (ts : List String) (m : List (String × Nat))
    (h : (m.map Prod.fst).Nodup) : ((ts.foldl bump m).map Prod.fst).Nodup := by
  induction ts generalizing m with
  | nil => exact h
  | cons t ts ih => exact ih _ (nodup_keys_bump m t h)

theorem topicCountMap_eq_foldl (ps : List Problem) :
    topicCountMap ps = (allTopics ps).foldl bump [] := by
  suffices h : ∀ m, ps.foldl (fun m p => p.topics.foldl bump m) m =
      (allTopics ps).foldl bump m from h []
  induction ps with
  | nil =>
    intro m
    simp [allTopics]
  | cons p ps ih =>
    intro m
    rw [List.foldl_cons, ih]
    simp [allTopics, List.foldl_append]

theorem countOf_topicCountMap (ps : List Problem) (t : String) :
    countOf (topicCountMap ps) t = (allTopics ps).count t := by
  rw [topicCountMap_eq_foldl, countOf_foldl_bump]
  simp [countOf]

theorem nodup_keys_topicCountMap (ps : List Problem) :
    ((topicCountMap ps).map Prod.fst).Nodup := by
  rw [topicCountMap_eq_foldl]
  exact nodup_keys_foldl_bump _ _ (by simp)

theorem mem_keys_topicCountMap (ps : List Problem) (t : String) :
    t ∈ (topicCountMap ps).map Prod.fst ↔ t ∈ allTopics ps := by
  rw [topicCountMap_eq_foldl, mem_keys_foldl_bump]
  simp

theorem map_entries_countOf (m : List (String × Nat)) (n : Nat)
    (h : (m.map Prod.fst).Nodup) :
    m.map (fun kv => (⟨kv.1, kv.2, percentageOf kv.2 n⟩ : TopicStats)) =
      (m.map Prod.fst).map
        (fun k => (⟨k, countOf m k, percentageOf (countOf m k) n⟩ : TopicStats)) := by
  induction m with
  | nil => simp
  | cons kv m ih =>
    obtain ⟨k, v⟩ := kv
    rcases List.nodup_cons.mp h with ⟨hk, hm⟩
    simp only [List.map_cons]
    congr 1
    · simp [countOf]
    · rw [ih hm]
      apply List.map_congr_left
      intro x hx
      have hxk : ¬ (k = x) := fun hcon => hk (hcon ▸ hx)
      simp [countOf, hxk]

theorem percentageOf_eq_spec (c n : Nat) :
    percentageOf c n = specPercentage c n := by
  by_cases h : n = 0
  · subst h
    show percentageOf c 0 = 0
    norm_num [percentageOf, pyRound1, roundHalfEven]
  · simp [percentageOf, specPercentage, h, Nat.pos_of_ne_zero h]

theorem topicWiseUnsorted_eq (ps : List Problem) :
    topicWiseUnsorted ps = ((topicCountMap ps).map Prod.fst).map
      (fun t => ⟨t, (allTopics ps).count t,
        specPercentage ((allTopics ps).count t) ps.length⟩) := by
  rw [topicWiseUnsorted, map_entries_countOf _ _ (nodup_keys_topicCountMap ps)]
  apply List.map_congr_left
  intro k hk
  rw [countOf_topicCountMap, percentageOf_eq_spec]

/-! ### Lemmas about the stable descending sort -/

theorem perm_insertDesc (a : TopicStats) (l : List TopicStats) :
    (insertDesc a l).Perm (a :: l) := by
  induction l with
  | nil => simp [insertDesc]
  | cons b l ih =>
    by_cases h : b.count ≤ a.count
    · rw [insertDesc, if_pos h]
    · rw [insertDesc, if_neg h]
      exact (ih.cons b).trans (List.Perm.swap a b l)

theorem perm_sortByCountDesc (l : List TopicStats) :
    (sortByCountDesc l).Perm l := by
  induction l with
  | nil => simp [sortByCountDesc]
  | cons a l ih => exact (perm_insertDesc a (sortByCountDesc l)).trans (ih.cons a)

theorem mem_insertDesc {x a : TopicStats} {l : List TopicStats} :
    x ∈ insertDesc a l ↔ x = a ∨ x ∈ l := by
  rw [(perm_insertDesc a l).mem_iff, List.mem_cons]

theorem pairwise_insertDesc {a : TopicStats} {l : List TopicStats}
    (h : l.Pairwise (fun x y => y.count ≤ x.count)) :
    (insertDesc a l).Pairwise (fun x y => y.count ≤ x.count) := by
  induction l with
  | nil => simp [insertDesc]
  | cons b l ih =>
    rcases List.pairwise_cons.mp h with ⟨hb, hl⟩
    by_cases hba : b.count ≤ a.count
    · rw [insertDesc, if_pos hba]
      refine List.pairwise_cons.mpr ⟨?_, h⟩
      intro y hy
      rcases List.mem_cons.mp hy with rfl | hy
      · exact hba
      · exact le_trans (hb y hy) hba
    · rw [insertDesc, if_neg hba]
      refine List.pairwise_cons.mpr ⟨?_, ih hl⟩
      intro y hy
      rcases mem_insertDesc.mp hy with rfl | hy
      · exact le_of_lt (lt_of_not_le hba)
      · exact hb y hy

theorem pairwise_sortByCountDesc (l : List TopicStats) :
    (sortByCountDesc l).Pairwise (fun x y => y.count ≤ x.count) := by
  induction l with
  | nil => simp [sortByCountDesc]
  | cons a l ih => exact pairwise_insertDesc ih

theorem filter_insertDesc_eq (a : TopicStats) (l : List TopicStats) {c : Nat}
    (hc : a.count = c) :
    (insertDesc a l).filter (fun x => x.count == c) =
      a :: l.filter (fun x => x.count == c) := by
  induction l with
  | nil => simp [insertDesc, hc]
  | cons b l ih =>
    by_cases h : b.count ≤ a.count
    · rw [insertDesc, if_pos h, List.filter_cons, List.filter_cons]
      simp [hc]
    · have hbc : ¬ (b.count = c) := by omega
      rw [insertDesc, if_neg h, List.filter_cons, List.filter_cons]
      simp [hbc, ih]

theorem filter_insertDesc_ne (a : TopicStats) (l : List TopicStats) {c : Nat}
    (hc : ¬ a.count = c) :
    (insertDesc a l).filter (fun x => x.count == c) =
      l.filter (fun x => x.count == c) := by
  induction l with
  | nil => simp [insertDesc, hc]
  | cons b l ih =>
    by_cases h : b.count ≤ a.count
    · rw [insertDesc, if_pos h, List.filter_cons, List.filter_cons]
      simp [hc]
    · rw [insertDesc, if_neg h, List.filter_cons, List.filter_cons, ih]

theorem filter_sortByCountDesc (l : List TopicStats) (c : Nat) :
    (sortByCountDesc l).filter (fun x => x.count == c) =
      l.filter (fun x => x.count == c) := by
  induction l with
  | nil => simp [sortByCountDesc]
  | cons a l ih =>
    show (insertDesc a (sortByCountDesc l)).filter (fun x => x.count == c) = _
    by_cases h : a.count = c
    · rw [filter_insertDesc_eq a _ h, ih, List.filter_cons]
      simp [h]
    · rw [filter_insertDesc_ne a _ h, ih, List.filter_cons]
      simp [h]

/-- Claim C4: `total_solved` is the number of problems; `topic_wise` has
one entry per distinct topic (no normalization) carrying the exact
occurrence count across all problems' topics lists and the percentage
`count / total_solved × 100` rounded to one decimal (0 when
`total_solved = 0`); the list is sorted by count descending; and within
each count class the order is exactly the first-seen (insertion) order
of the aggregation. -/
theorem claim4_topic_stats (ps : List Problem) (today : Int) :
    (get_stats ps today).total_solved = ps.length ∧
    ((get_stats ps today).topic_wise).Perm (specTopicEntries ps) ∧
    ((get_stats ps today).topic_wise).Pairwise (fun a b => b.count ≤ a.count) ∧
    ∀ c : Nat, ((get_stats ps today).topic_wise).filter (fun x => x.count == c) =
      (topicWiseUnsorted ps).filter (fun x => x.count == c) := by
  refine ⟨rfl, ?_, ?_, ?_⟩
  · show (sortByCountDesc (topicWiseUnsorted ps)).Perm (specTopicEntries ps)
    refine (perm_sortByCountDesc _).trans ?_
    rw [topicWiseUnsorted_eq, specTopicEntries]
    exact ((List.perm_ext_iff_of_nodup (nodup_keys_topicCountMap ps)
      (List.nodup_dedup _)).mpr
        (fun a => by rw [mem_keys_topicCountMap, List.mem_dedup])).map _
  · exact pairwise_sortByCountDesc _
  · intro c
    exact filter_sortByCountDesc _ c

end CodeTrackr
